import Mathlib

/-!
Verification of the qubes-streaming handshake codec and lifecycle loops.

The handshake codec is embedded from `send_stream_videoinfo` and
`recv_stream_videoinfo` in `src/main.rs`: bytes are modelled as natural
numbers below 256, the stream as a `List Nat` (decoding consumes a prefix
and ignores any trailing media bytes, exactly as the Rust code reads from
stdin).  `usize` is 8 bytes wide, matching the 64-bit targets the program
is built for.  The lifecycle loops of `producer` and `receiver` are
embedded as step functions over per-iteration observations.
-/

namespace QubesStreaming

/-- Rust `VideoInfo { width: i32, height: i32, format: String }`.
The `format` string is kept as its UTF-8 byte sequence; `width` and
`height` carry the i32 range as side conditions in the theorems. -/
structure VideoInfo where
  width : Int
  height : Int
  format : List Nat
deriving DecidableEq

/-- Big-endian bytes of `k`, `n` bytes wide: Rust `to_be_bytes`. -/
def toBeBytes : Nat → Nat → List Nat
  | 0, _ => []
  | n + 1, k => (k / 2 ^ (8 * n)) % 256 :: toBeBytes n k

/-- Big-endian value of a byte list: Rust `from_be_bytes`. -/
def fromBeBytes : List Nat → Nat
  | [] => 0
  | b :: rest => b * 2 ^ (8 * rest.length) + fromBeBytes rest

/-- `i32::to_be_bytes` (two's complement). -/
def encodeI32 (w : Int) : List Nat := toBeBytes 4 (w % 4294967296).toNat

/-- `i32::from_be_bytes` (two's complement). -/
def decodeI32 (l : List Nat) : Int :=
  let n := fromBeBytes l
  if n < 2147483648 then (n : Int) else (n : Int) - 4294967296

/-- UTF-8 continuation byte `0x80..=0xBF`. -/
def isCont (b : Nat) : Bool := decide (128 ≤ b ∧ b ≤ 191)

/-- UTF-8 validity as checked by Rust `String::from_utf8`: no overlong
encodings, no surrogates, nothing beyond U+10FFFF. -/
def validUtf8 : List Nat → Bool
  | [] => true
  | b :: rest =>
    if b ≤ 127 then validUtf8 rest
    else if 194 ≤ b ∧ b ≤ 223 then
      match rest with
      | b1 :: rest1 => isCont b1 && validUtf8 rest1
      | [] => false
    else if 224 ≤ b ∧ b ≤ 239 then
      match rest with
      | b1 :: b2 :: rest2 =>
        (if b = 224 then decide (160 ≤ b1 ∧ b1 ≤ 191)
         else if b = 237 then decide (128 ≤ b1 ∧ b1 ≤ 159)
         else isCont b1) && isCont b2 && validUtf8 rest2
      | _ => false
    else if 240 ≤ b ∧ b ≤ 244 then
      match rest with
      | b1 :: b2 :: b3 :: rest3 =>
        (if b = 240 then decide (144 ≤ b1 ∧ b1 ≤ 191)
         else if b = 244 then decide (128 ≤ b1 ∧ b1 ≤ 143)
         else isCont b1) && isCont b2 && isCont b3 && validUtf8 rest3
      | _ => false
    else false

/-- `send_stream_videoinfo`: width, height, `format.len()` as 8-byte
`usize`, then the raw format bytes, in that order. -/
def encode (v : VideoInfo) : List Nat :=
  encodeI32 v.width ++ encodeI32 v.height ++ toBeBytes 8 v.format.length ++ v.format

/-- The format-name length declared in a header (bytes 8..16). -/
def declaredLen (l : List Nat) : Nat := fromBeBytes ((l.take 16).drop 8)

/-- The three ways `recv_stream_videoinfo` can end: a parsed value, an
`Err` propagated by `?`, or a Rust panic. -/
inductive DecodeResult
  | ok (v : VideoInfo)
  | fail
  | panic
deriving DecidableEq

/-- `isize::MAX` on the 64-bit targets the program is built for:
`vec![0u8; n]` panics with capacity overflow for `n` above this. -/
def isizeMax : Nat := 9223372036854775807

/-- `recv_stream_videoinfo`: read exactly 16 header bytes, parse width,
height and the declared length, allocate `vec![0; format_len]`, read that
many format bytes, validate UTF-8.  `fail` models the `?`-propagated
errors (`read_exact` hitting end of input, `String::from_utf8` failing);
`panic` models the deterministic capacity-overflow panic of
`vec![0; format_len]` when the declared length exceeds `isize::MAX`,
which happens after the header is read but before any format byte is. -/
def decode (l : List Nat) : DecodeResult :=
  if l.length < 16 then .fail
  else
    let buffer := l.take 16
    let width := decodeI32 (buffer.take 4)
    let height := decodeI32 ((buffer.drop 4).take 4)
    let flen := fromBeBytes (buffer.drop 8)
    if isizeMax < flen then .panic
    else
      let rest := l.drop 16
      if rest.length < flen then .fail
      else
        let fb := rest.take flen
        if validUtf8 fb then .ok ⟨width, height, fb⟩ else .fail

theorem toBeBytes_length (n k : Nat) : (toBeBytes n k).length = n := by
  induction n generalizing k with
  | zero => rfl
  | succ n ih => simp [toBeBytes, ih]

theorem fromBeBytes_toBeBytes (n k : Nat) :
    fromBeBytes (toBeBytes n k) = k % 2 ^ (8 * n) := by
  induction n generalizing k with
  | zero => simp [toBeBytes, fromBeBytes, Nat.mod_one]
  | succ n ih =>
    have h256 : (2 : Nat) ^ (8 * (n + 1)) = 2 ^ (8 * n) * 256 := by
      rw [Nat.mul_add, Nat.pow_add]
    rw [toBeBytes, fromBeBytes, toBeBytes_length, ih, h256, Nat.mod_mul]
    ring

theorem decodeI32_encodeI32 (w : Int) (h1 : -2147483648 ≤ w) (h2 : w < 2147483648) :
    decodeI32 (encodeI32 w) = w := by
  rw [decodeI32, encodeI32, fromBeBytes_toBeBytes]
  have hlt : (w % 4294967296).toNat < 2 ^ (8 * 4) := by
    have h0 : (0 : Int) ≤ w % 4294967296 := Int.emod_nonneg w (by norm_num)
    have hl : w % 4294967296 < 4294967296 := Int.emod_lt_of_pos w (by norm_num)
    omega
  rw [Nat.mod_eq_of_lt hlt]
  rcases le_or_lt 0 w with hw | hw
  · have hmod : w % 4294967296 = w := Int.emod_eq_of_lt hw (by omega)
    rw [hmod]
    have hsmall : w.toNat < 2147483648 := by omega
    rw [if_pos hsmall]
    omega
  · have hmod : w % 4294967296 = w + 4294967296 := by omega
    rw [hmod]
    have hge : ¬ (w + 4294967296).toNat < 2147483648 := by omega
    rw [if_neg hge]
    omega

theorem encodeI32_length (w : Int) : (encodeI32 w).length = 4 := by
  rw [encodeI32, toBeBytes_length]

/-- General round-trip: decoding an encoded `VideoInfo` recovers it, for
any i32-ranged width/height, valid-UTF-8 format bytes and a format length
in the program-realizable range (a Rust `String` holds at most
`isize::MAX` bytes).  No positivity or non-emptiness is needed. -/
theorem decode_encode (w h : Int) (f : List Nat)
    (hw1 : -2147483648 ≤ w) (hw2 : w < 2147483648)
    (hh1 : -2147483648 ≤ h) (hh2 : h < 2147483648)
    (hf : validUtf8 f = true) (hflen : f.length ≤ isizeMax) :
    decode (encode ⟨w, h, f⟩) = DecodeResult.ok ⟨w, h, f⟩ := by
  have ha : (encodeI32 w).length = 4 := encodeI32_length w
  have hb : (encodeI32 h).length = 4 := encodeI32_length h
  have hc : (toBeBytes 8 f.length).length = 8 := toBeBytes_length 8 _
  have hassoc : encode ⟨w, h, f⟩ =
      (encodeI32 w ++ encodeI32 h ++ toBeBytes 8 f.length) ++ f := by
    simp [encode, List.append_assoc]
  have hlen : (encode ⟨w, h, f⟩).length = 16 + f.length := by
    rw [hassoc]; simp [ha, hb, hc]; omega
  have hhead : (encode ⟨w, h, f⟩).take 16 =
      encodeI32 w ++ encodeI32 h ++ toBeBytes 8 f.length := by
    rw [hassoc]
    apply List.take_left'
    simp [ha, hb, hc]
  have htail : (encode ⟨w, h, f⟩).drop 16 = f := by
    rw [hassoc]
    apply List.drop_left'
    simp [ha, hb, hc]
  have hw' : (encodeI32 w ++ encodeI32 h ++ toBeBytes 8 f.length).take 4 =
      encodeI32 w := by
    rw [List.append_assoc]
    exact List.take_left' ha
  have hh' : ((encodeI32 w ++ encodeI32 h ++ toBeBytes 8 f.length).drop 4).take 4 =
      encodeI32 h := by
    rw [List.append_assoc, List.drop_left' ha]
    exact List.take_left' hb
  have hc' : (encodeI32 w ++ encodeI32 h ++ toBeBytes 8 f.length).drop 8 =
      toBeBytes 8 f.length := by
    apply List.drop_left'
    simp [ha, hb]
  have hisize : isizeMax = 9223372036854775807 := rfl
  rw [decode]
  rw [if_neg (by omega)]
  simp only [hhead, htail, hw', hh', hc']
  rw [fromBeBytes_toBeBytes]
  have hmod : f.length % 2 ^ (8 * 8) = f.length := Nat.mod_eq_of_lt (by omega)
  rw [hmod]
  rw [if_neg (show ¬ isizeMax < f.length by omega)]
  rw [if_neg (by omega)]
  rw [List.take_length]
  rw [if_pos hf]
  rw [decodeI32_encodeI32 w hw1 hw2, decodeI32_encodeI32 h hh1 hh2]

/-- Claim C1: for every `FrameGeometry` with positive width and height (in i32
range) and a non-empty valid-UTF-8 format name (of a length realizable by
a Rust `String`, i.e. at most `isize::MAX` bytes), decoding the byte
sequence produced by `send_stream_videoinfo`'s serialization with
`recv_stream_videoinfo`'s parse yields the same value:
`decode (encode g) = ok g`. -/
theorem videoinfo_roundtrip (w h : Int) (f : List Nat)
    (hwpos : 0 < w) (hw : w < 2147483648)
    (hhpos : 0 < h) (hh : h < 2147483648)
    (hne : f ≠ []) (hf : validUtf8 f = true) (hflen : f.length ≤ isizeMax) :
    decode (encode ⟨w, h, f⟩) = DecodeResult.ok ⟨w, h, f⟩ :=
  decode_encode w h f (by omega) hw (by omega) hh hf hflen

/-- Witness for C1 at width 3840, height 1080, format "BGRx". -/
theorem videoinfo_roundtrip_witness :
    decode (encode ⟨3840, 1080, [66, 71, 82, 120]⟩) =
      DecodeResult.ok ⟨3840, 1080, [66, 71, 82, 120]⟩ :=
  videoinfo_roundtrip 3840 1080 [66, 71, 82, 120] (by decide) (by decide)
    (by decide) (by decide) (by decide) (by decide) (by decide)

/-- Claim C2: encoding `{width := 3840, height := 1080, format := "BGRx"}`
produces exactly the 20 bytes `00 00 0F 00 | 00 00 04 38 |
00 00 00 00 00 00 00 04 | 42 47 52 78` — 4-byte big-endian signed width,
4-byte big-endian signed height, 8-byte big-endian length, format bytes,
no padding. -/
theorem encode_scenarioA :
    encode ⟨3840, 1080, [66, 71, 82, 120]⟩ =
      [0, 0, 15, 0, 0, 0, 4, 56, 0, 0, 0, 0, 0, 0, 0, 4, 66, 71, 82, 120] := by
  decide

/-- Counterexample to claim C3 as stated: a 16-byte input whose declared
format length is `2^63` (above `isize::MAX`) makes `recv_stream_videoinfo`
panic deterministically with capacity overflow at `vec![0; format_len]`
instead of returning an error, although the input is shorter than 16 plus
the declared length, where the claim demands an error return. -/
theorem decode_panic_counterexample :
    decode [0, 0, 0, 0, 0, 0, 0, 0, 128, 0, 0, 0, 0, 0, 0, 0] = DecodeResult.panic ∧
    List.length ([0, 0, 0, 0, 0, 0, 0, 0, 128, 0, 0, 0, 0, 0, 0, 0] : List Nat) <
      16 + declaredLen [0, 0, 0, 0, 0, 0, 0, 0, 128, 0, 0, 0, 0, 0, 0, 0] := by
  decide

/-- Claim C3 (amended): `recv_stream_videoinfo` returns an error exactly
when the input is shorter than 16 bytes, or — provided the declared
format length is at most `isize::MAX` — shorter than 16 plus the declared
length or invalid UTF-8; when the input has at least 16 bytes and the
declared length exceeds `isize::MAX`, the function panics with capacity
overflow at `vec![0; format_len]` instead of returning an error;
otherwise it succeeds.  The last conjunct states the parse never reads
past the available bytes: its outcome depends only on the first
`16 + declaredLen` bytes. -/
theorem decode_error_characterization (l : List Nat) :
    (decode l = DecodeResult.panic ↔ ¬ l.length < 16 ∧ isizeMax < declaredLen l) ∧
    (decode l = DecodeResult.fail ↔
      l.length < 16 ∨ (declaredLen l ≤ isizeMax ∧
        (l.length < 16 + declaredLen l ∨
          validUtf8 ((l.drop 16).take (declaredLen l)) = false))) ∧
    decode l = decode (l.take (16 + declaredLen l)) := by
  have hdl : fromBeBytes ((l.take 16).drop 8) = declaredLen l := rfl
  refine ⟨?_, ?_, ?_⟩
  · rw [decode]
    by_cases h16 : l.length < 16
    · rw [if_pos h16]
      simp [h16]
    · rw [if_neg h16]
      simp only [hdl, List.length_drop]
      by_cases hpan : isizeMax < declaredLen l
      · rw [if_pos hpan]
        simp [h16, hpan]
      · rw [if_neg hpan]
        by_cases hshort : l.length - 16 < declaredLen l
        · rw [if_pos hshort]
          simp [hpan]
        · rw [if_neg hshort]
          by_cases hv : validUtf8 ((l.drop 16).take (declaredLen l)) = true
          · rw [if_pos hv]
            simp [hpan]
          · rw [if_neg hv]
            simp [hpan]
  · rw [decode]
    by_cases h16 : l.length < 16
    · rw [if_pos h16]
      simp [h16]
    · rw [if_neg h16]
      simp only [hdl, List.length_drop]
      by_cases hpan : isizeMax < declaredLen l
      · rw [if_pos hpan]
        simp [h16, show ¬ declaredLen l ≤ isizeMax by omega]
      · rw [if_neg hpan]
        by_cases hshort : l.length - 16 < declaredLen l
        · rw [if_pos hshort]
          simp [h16, show declaredLen l ≤ isizeMax by omega,
            show l.length < 16 + declaredLen l by omega]
        · rw [if_neg hshort]
          by_cases hv : validUtf8 ((l.drop 16).take (declaredLen l)) = true
          · rw [if_pos hv]
            simp [h16, hv, show ¬ l.length < 16 + declaredLen l by omega]
          · rw [if_neg hv]
            have hv2 : validUtf8 ((l.drop 16).take (declaredLen l)) = false := by
              revert hv; cases validUtf8 ((l.drop 16).take (declaredLen l)) <;> simp
            simp [h16, hv2, show declaredLen l ≤ isizeMax by omega]
  · have htk16 : (l.take (16 + declaredLen l)).take 16 = l.take 16 := by
      rw [List.take_take]
      congr 1
      omega
    have hdrop : (l.take (16 + declaredLen l)).drop 16 =
        (l.drop 16).take (declaredLen l) := by
      rw [List.drop_take]
      congr 1
      omega
    have hlentk : (l.take (16 + declaredLen l)).length =
        min (16 + declaredLen l) l.length := List.length_take _ _
    rw [decode, decode]
    by_cases h16 : l.length < 16
    · rw [if_pos h16, if_pos (show (l.take (16 + declaredLen l)).length < 16 by
        rw [hlentk]; omega)]
    · rw [if_neg h16, if_neg (show ¬ (l.take (16 + declaredLen l)).length < 16 by
        rw [hlentk]; omega)]
      simp only [htk16, hdrop, hdl]
      by_cases hpan : isizeMax < declaredLen l
      · rw [if_pos hpan, if_pos hpan]
      · rw [if_neg hpan, if_neg hpan]
        have hfb : List.take (declaredLen l) (List.take (declaredLen l) (l.drop 16)) =
            List.take (declaredLen l) (l.drop 16) := by
          rw [List.take_take]; simp
        rw [hfb]
        simp only [List.length_take, List.length_drop]
        by_cases hshort : l.length - 16 < declaredLen l
        · rw [if_pos hshort,
            if_pos (show declaredLen l ⊓ (l.length - 16) < declaredLen l by omega)]
        · rw [if_neg hshort,
            if_neg (show ¬ declaredLen l ⊓ (l.length - 16) < declaredLen l by omega)]

/-- Claim C10: the parse does not enforce the `FrameGeometry` invariant: a
well-formed input encoding a non-positive width or height or an empty
format name still decodes successfully to exactly those values. -/
theorem decode_skips_invariant (w h : Int) (f : List Nat)
    (hw1 : -2147483648 ≤ w) (hw2 : w < 2147483648)
    (hh1 : -2147483648 ≤ h) (hh2 : h < 2147483648)
    (hf : validUtf8 f = true) (hflen : f.length ≤ isizeMax)
    (hbad : w ≤ 0 ∨ h ≤ 0 ∨ f = []) :
    decode (encode ⟨w, h, f⟩) = DecodeResult.ok ⟨w, h, f⟩ :=
  decode_encode w h f hw1 hw2 hh1 hh2 hf hflen

/-- Witness for C10 at width -5, height 0, empty format. -/
theorem decode_skips_invariant_witness :
    decode (encode ⟨-5, 0, []⟩) = DecodeResult.ok ⟨-5, 0, []⟩ :=
  decode_skips_invariant (-5) 0 [] (by decide) (by decide) (by decide)
    (by decide) (by decide) (by decide) (by decide)

/-! ## Lifecycle loops

The `while !received_eos` loops of `producer` and `receiver` are embedded
as step functions over a finite trace of per-iteration observations.
Each iteration observes the `should_exit` flag, the producer's
`poll(stdin)` result, whether the receiver's stdout write would fail, and
the bus messages delivered within this one-second poll window. -/

/-- A message observed on the GStreamer bus within one poll window. -/
inductive BusMsg
  | eos
  | error
  | other
deriving DecidableEq

/-- Observable side effects of a run: `pipeline.send_event(Eos)`,
`pipeline.set_state(Null)`, and the receiver's `0x0A` control-byte write
to stdout. -/
inductive Act
  | sendEos
  | setNull
  | writeControl
deriving DecidableEq

/-- What one loop iteration observes.  A window is timeless: it records
which messages the drain yields, not when they arrive; the real-time cost
of a drain is modelled separately by `drainTime`. -/
structure Obs where
  shouldExit : Bool
  control : Bool
  writeFails : Bool
  bus : List BusMsg
deriving DecidableEq

/-- The loop-local state: `received_eos`, `already_exited`, plus a ghost
flag recording whether the run was terminated by the bus `Error` branch
rather than the `Eos` branch. -/
structure LoopState where
  receivedEos : Bool
  alreadyExited : Bool
  endedByError : Bool
deriving DecidableEq

/-- `let mut received_eos = false; let mut already_exited = false;`. -/
def initState : LoopState := ⟨false, false, false⟩

/-- Number of occurrences of one action in an action list. -/
def countAct (a : Act) : List Act → Nat
  | [] => 0
  | b :: rest => (if b = a then 1 else 0) + countAct a rest

/-- Fold a terminal bus message into the loop state, with the given value
of `already_exited`. -/
def applyTerm (s : LoopState) (t : Option Bool) (exited : Bool) : LoopState :=
  match t with
  | none => ⟨s.receivedEos, exited, s.endedByError⟩
  | some e => ⟨true, exited, s.endedByError || e⟩

/-- `for msg in bus.iter_timed(1s)` in `producer`: skip non-terminal
messages; on `Eos` stop; on `Error` call `set_state(Null)` and stop.
Returns the terminal message observed (`some true` = `Error`) and the
emitted actions. -/
def producerBus : List BusMsg → Option Bool × List Act
  | [] => (none, [])
  | BusMsg.eos :: _ => (some false, [])
  | BusMsg.error :: _ => (some true, [Act.setNull])
  | BusMsg.other :: rest => producerBus rest

/-- One iteration of `producer`'s while loop (entered only with
`received_eos = false`): check `should_exit`, then `poll(stdin)`, each
sending EOS at most once guarded by `already_exited`, then drain the bus
window. -/
def producerStep (s : LoopState) (o : Obs) : LoopState × List Act :=
  let exited1 := s.alreadyExited || o.shouldExit
  let acts1 : List Act := if !s.alreadyExited && o.shouldExit then [Act.sendEos] else []
  let exited2 := exited1 || o.control
  let acts2 : List Act := if !exited1 && o.control then [Act.sendEos] else []
  let p := producerBus o.bus
  (applyTerm s p.1 exited2, acts1 ++ acts2 ++ p.2)

/-- The whole `while !received_eos` loop of `producer`, driven by a
finite trace of observations. -/
def producerRun : LoopState → List Obs → LoopState × List Act
  | s, [] => (s, [])
  | s, o :: rest =>
    if s.receivedEos then (s, [])
    else
      let p := producerStep s o
      let q := producerRun p.1 rest
      (q.1, p.2 ++ q.2)

/-- `producer` from `set_state(Playing)` on: the loop followed by the
final `set_state(Null)` cleanup. -/
def producerProgram (trace : List Obs) : List Act :=
  (producerRun initState trace).2 ++ [Act.setNull]

/-- Bus processing in `receiver`: on `Error` the `0x0A` control byte is
written to stdout behind `?`, so a failed write (second argument `true`)
aborts the whole function, modelled by `none`. -/
def receiverBus : List BusMsg → Bool → Option (Option Bool × List Act)
  | [], _ => some (none, [])
  | BusMsg.eos :: _, _ => some (some false, [])
  | BusMsg.error :: _, wf =>
    if wf then none else some (some true, [Act.writeControl])
  | BusMsg.other :: rest, wf => receiverBus rest wf

/-- Result of (part of) a receiver run: final loop state, emitted
actions, and whether the function returned early with `Err` because a
stdout write failed. -/
structure RunResult where
  state : LoopState
  acts : List Act
  errored : Bool
deriving DecidableEq

/-- One iteration of `receiver`'s loop: on `should_exit` the control byte
is written first (`?`: a failure aborts before `send_event(Eos)` and
before `already_exited` is set), then EOS is sent; then the bus window is
drained. -/
def receiverStep (s : LoopState) (o : Obs) : RunResult :=
  if !s.alreadyExited && o.shouldExit then
    if o.writeFails then ⟨s, [], true⟩
    else
      match receiverBus o.bus o.writeFails with
      | some pr => ⟨applyTerm s pr.1 true, Act.writeControl :: Act.sendEos :: pr.2, false⟩
      | none => ⟨⟨s.receivedEos, true, s.endedByError⟩, [Act.writeControl, Act.sendEos], true⟩
  else
    match receiverBus o.bus o.writeFails with
    | some pr => ⟨applyTerm s pr.1 s.alreadyExited, pr.2, false⟩
    | none => ⟨s, [], true⟩

/-- The whole `while !received_eos` loop of `receiver`. -/
def receiverRun : LoopState → List Obs → RunResult
  | s, [] => ⟨s, [], false⟩
  | s, o :: rest =>
    if s.receivedEos then ⟨s, [], false⟩
    else
      let r := receiverStep s o
      if r.errored then r
      else
        let r2 := receiverRun r.state rest
        ⟨r2.state, r.acts ++ r2.acts, r2.errored⟩

/-- `receiver` from `set_state(Playing)` on: the loop then the final
`set_state(Null)`, unless a write failure aborted the run first.  The
boolean is `true` when the function returned `Err`. -/
def receiverProgram (trace : List Obs) : List Act × Bool :=
  let r := receiverRun initState trace
  if r.errored then (r.acts, true) else (r.acts ++ [Act.setNull], false)

theorem countAct_append (a : Act) (l1 l2 : List Act) :
    countAct a (l1 ++ l2) = countAct a l1 + countAct a l2 := by
  induction l1 with
  | nil => simp [countAct]
  | cons b rest ih => simp [countAct, ih, Nat.add_assoc]

theorem producerBus_eos_count (b : List BusMsg) :
    countAct Act.sendEos (producerBus b).2 = 0 := by
  induction b with
  | nil => rfl
  | cons m rest ih =>
    cases m with
    | eos => rfl
    | error => rfl
    | other => exact ih

theorem producerStep_exited (s : LoopState) (o : Obs) :
    (producerStep s o).1.alreadyExited = (s.alreadyExited || o.shouldExit || o.control) := by
  obtain ⟨re, ae, ee⟩ := s
  obtain ⟨se, co, wf, bus⟩ := o
  simp only [producerStep]
  cases (producerBus bus).1 <;> simp [applyTerm]

theorem producerStep_eos_count (s : LoopState) (o : Obs) :
    countAct Act.sendEos (producerStep s o).2 =
      if s.alreadyExited then 0 else if o.shouldExit || o.control then 1 else 0 := by
  obtain ⟨re, ae, ee⟩ := s
  obtain ⟨se, co, wf, bus⟩ := o
  cases ae <;> cases se <;> cases co <;>
    simp [producerStep, countAct_append, countAct, producerBus_eos_count]

theorem producerRun_stopped (s : LoopState) (t : List Obs) (h : s.receivedEos = true) :
    producerRun s t = (s, []) := by
  cases t with
  | nil => rfl
  | cons o rest => simp [producerRun, h]

theorem producerRun_exited_mono (t : List Obs) : ∀ s : LoopState,
    s.alreadyExited = true → (producerRun s t).1.alreadyExited = true := by
  induction t with
  | nil => intro s h; exact h
  | cons o rest ih =>
    intro s h
    by_cases hre : s.receivedEos = true
    · rw [producerRun_stopped s _ hre]; exact h
    · have hre2 : s.receivedEos = false := by
        revert hre; cases s.receivedEos <;> simp
      simp only [producerRun, hre2, Bool.false_eq_true, if_false]
      apply ih
      rw [producerStep_exited, h]
      rfl

theorem producerRun_eos_count (t : List Obs) : ∀ s : LoopState,
    countAct Act.sendEos (producerRun s t).2 =
      if (producerRun s t).1.alreadyExited && !s.alreadyExited then 1 else 0 := by
  induction t with
  | nil =>
    intro s
    simp [producerRun, countAct]
  | cons o rest ih =>
    intro s
    by_cases hre : s.receivedEos = true
    · rw [producerRun_stopped s _ hre]
      simp [countAct]
    · have hre2 : s.receivedEos = false := by
        revert hre; cases s.receivedEos <;> simp
      simp only [producerRun, hre2, Bool.false_eq_true, if_false]
      rw [countAct_append, producerStep_eos_count, ih]
      have hstep := producerStep_exited s o
      by_cases hae : s.alreadyExited = true
      · rw [if_pos hae]
        have h1 : (producerStep s o).1.alreadyExited = true := by
          rw [hstep, hae]; rfl
        rw [h1, hae]
        simp
      · have hae2 : s.alreadyExited = false := by
          revert hae; cases s.alreadyExited <;> simp
        rw [if_neg hae, hae2]
        by_cases htrig : (o.shouldExit || o.control) = true
        · rw [if_pos htrig]
          have h1 : (producerStep s o).1.alreadyExited = true := by
            rw [hstep, hae2]; simpa using htrig
          have h2 : (producerRun (producerStep s o).1 rest).1.alreadyExited = true :=
            producerRun_exited_mono rest _ h1
          rw [h1, h2]
          simp
        · have htrig2 : (o.shouldExit || o.control) = false := by
            revert htrig; cases (o.shouldExit || o.control) <;> simp
          rw [if_neg htrig]
          have h1 : (producerStep s o).1.alreadyExited = false := by
            rw [hstep, hae2]
            revert htrig2; cases o.shouldExit <;> cases o.control <;> simp
          rw [h1]
          simp

theorem producerRun_append (l1 l2 : List Obs) : ∀ s : LoopState,
    producerRun s (l1 ++ l2) =
      ((producerRun (producerRun s l1).1 l2).1,
        (producerRun s l1).2 ++ (producerRun (producerRun s l1).1 l2).2) := by
  induction l1 with
  | nil => intro s; simp [producerRun]
  | cons o rest ih =>
    intro s
    by_cases hre : s.receivedEos = true
    · rw [List.cons_append, producerRun_stopped s _ hre, producerRun_stopped s _ hre,
        producerRun_stopped s _ hre]
      simp
    · have hre2 : s.receivedEos = false := by
        revert hre; cases s.receivedEos <;> simp
      simp only [List.cons_append, producerRun, hre2, Bool.false_eq_true, if_false,
        List.append_eq]
      rw [ih]
      simp [List.append_assoc]

theorem receiverBus_false_ne_none (b : List BusMsg) : receiverBus b false ≠ none := by
  induction b with
  | nil => simp [receiverBus]
  | cons m rest ih =>
    cases m with
    | eos => simp [receiverBus]
    | error => simp [receiverBus]
    | other => simpa [receiverBus] using ih

theorem receiverBus_eos_count (b : List BusMsg) (wf : Bool) :
    ∀ pr, receiverBus b wf = some pr → countAct Act.sendEos pr.2 = 0 := by
  induction b with
  | nil =>
    intro pr h
    simp only [receiverBus] at h
    injection h with h
    subst h
    rfl
  | cons m rest ih =>
    intro pr h
    cases m with
    | eos =>
      simp only [receiverBus] at h
      injection h with h
      subst h
      rfl
    | error =>
      simp only [receiverBus] at h
      cases wf with
      | true => exact absurd h (by simp)
      | false =>
        simp only [if_neg (by simp : ¬ (false : Bool) = true)] at h
        injection h with h
        subst h
        rfl
    | other =>
      simp only [receiverBus] at h
      exact ih pr h

theorem receiverStep_exited_mono (s : LoopState) (o : Obs) (h : s.alreadyExited = true) :
    (receiverStep s o).state.alreadyExited = true := by
  rw [receiverStep]
  simp only [h, Bool.not_true, Bool.false_and, Bool.false_eq_true, if_false]
  cases hb : receiverBus o.bus o.writeFails with
  | none => simpa using h
  | some pr =>
    obtain ⟨t, acts⟩ := pr
    cases t <;> simp [applyTerm, h]

theorem receiverStep_eos_count (s : LoopState) (o : Obs) :
    countAct Act.sendEos (receiverStep s o).acts =
      if (receiverStep s o).state.alreadyExited && !s.alreadyExited then 1 else 0 := by
  by_cases hae : s.alreadyExited = true
  · rw [receiverStep_exited_mono s o hae, hae]
    simp only [Bool.not_true, Bool.and_false, Bool.false_eq_true, if_false]
    rw [receiverStep]
    simp only [hae, Bool.not_true, Bool.false_and, Bool.false_eq_true, if_false]
    cases hb : receiverBus o.bus o.writeFails with
    | none => rfl
    | some pr => simpa using receiverBus_eos_count o.bus o.writeFails pr hb
  · have hae2 : s.alreadyExited = false := by
      revert hae; cases s.alreadyExited <;> simp
    rw [receiverStep]
    simp only [hae2, Bool.not_false, Bool.true_and]
    by_cases hse : o.shouldExit = true
    · rw [if_pos hse]
      by_cases hwf : o.writeFails = true
      · rw [if_pos hwf]
        simp [hae2, countAct]
      · have hwf2 : o.writeFails = false := by
          revert hwf; cases o.writeFails <;> simp
        rw [if_neg hwf]
        rw [hwf2]
        cases hb : receiverBus o.bus false with
        | none => exact absurd hb (receiverBus_false_ne_none o.bus)
        | some pr =>
          have hc := receiverBus_eos_count o.bus false pr hb
          cases pr with
          | mk t acts =>
            simp only at hc
            cases t <;> simp [applyTerm, countAct, hc, hae2]
    · rw [if_neg hse]
      cases hb : receiverBus o.bus o.writeFails with
      | none => simp [hae2, countAct]
      | some pr =>
        have hc := receiverBus_eos_count o.bus o.writeFails pr hb
        cases pr with
        | mk t acts =>
          simp only at hc
          cases t <;> simp [applyTerm, countAct, hc, hae2]

theorem receiverRun_stopped (s : LoopState) (t : List Obs) (h : s.receivedEos = true) :
    receiverRun s t = ⟨s, [], false⟩ := by
  cases t with
  | nil => rfl
  | cons o rest => simp [receiverRun, h]

theorem receiverRun_exited_mono (t : List Obs) : ∀ s : LoopState,
    s.alreadyExited = true → (receiverRun s t).state.alreadyExited = true := by
  induction t with
  | nil => intro s h; exact h
  | cons o rest ih =>
    intro s h
    by_cases hre : s.receivedEos = true
    · rw [receiverRun_stopped s _ hre]; exact h
    · have hre2 : s.receivedEos = false := by
        revert hre; cases s.receivedEos <;> simp
      simp only [receiverRun, hre2, Bool.false_eq_true, if_false]
      by_cases herr : (receiverStep s o).errored = true
      · simp only [herr, if_true]
        exact receiverStep_exited_mono s o h
      · have herr2 : (receiverStep s o).errored = false := by
          revert herr; cases (receiverStep s o).errored <;> simp
        simp only [herr2, Bool.false_eq_true, if_false]
        exact ih _ (receiverStep_exited_mono s o h)

theorem receiverRun_eos_count (t : List Obs) : ∀ s : LoopState,
    countAct Act.sendEos (receiverRun s t).acts =
      if (receiverRun s t).state.alreadyExited && !s.alreadyExited then 1 else 0 := by
  induction t with
  | nil =>
    intro s
    simp [receiverRun, countAct]
  | cons o rest ih =>
    intro s
    by_cases hre : s.receivedEos = true
    · rw [receiverRun_stopped s _ hre]
      simp [countAct]
    · have hre2 : s.receivedEos = false := by
        revert hre; cases s.receivedEos <;> simp
      simp only [receiverRun, hre2, Bool.false_eq_true, if_false]
      by_cases herr : (receiverStep s o).errored = true
      · simp only [herr, if_true]
        exact receiverStep_eos_count s o
      · have herr2 : (receiverStep s o).errored = false := by
          revert herr; cases (receiverStep s o).errored <;> simp
        simp only [herr2, Bool.false_eq_true, if_false]
        rw [countAct_append, receiverStep_eos_count, ih]
        by_cases hmid : (receiverStep s o).state.alreadyExited = true
        · rw [hmid, receiverRun_exited_mono rest _ hmid]
          by_cases hae : s.alreadyExited = true
          · rw [hae]; simp
          · have hae2 : s.alreadyExited = false := by
              revert hae; cases s.alreadyExited <;> simp
            rw [hae2]; simp
        · have hmid2 : (receiverStep s o).state.alreadyExited = false := by
            revert hmid; cases (receiverStep s o).state.alreadyExited <;> simp
          have hae2 : s.alreadyExited = false := by
            by_contra hc
            have : s.alreadyExited = true := by
              revert hc; cases s.alreadyExited <;> simp
            rw [receiverStep_exited_mono s o this] at hmid2
            exact absurd hmid2 (by simp)
          rw [hmid2, hae2]
          simp

theorem receiverRun_append (l1 l2 : List Obs) : ∀ s : LoopState,
    (receiverRun s l1).errored = false →
    receiverRun s (l1 ++ l2) =
      ⟨(receiverRun (receiverRun s l1).state l2).state,
        (receiverRun s l1).acts ++ (receiverRun (receiverRun s l1).state l2).acts,
        (receiverRun (receiverRun s l1).state l2).errored⟩ := by
  induction l1 with
  | nil => intro s _; simp [receiverRun]
  | cons o rest ih =>
    intro s hnoerr
    by_cases hre : s.receivedEos = true
    · rw [List.cons_append, receiverRun_stopped s _ hre, receiverRun_stopped s _ hre]
      simp [receiverRun_stopped s l2 hre]
    · have hre2 : s.receivedEos = false := by
        revert hre; cases s.receivedEos <;> simp
      by_cases herr : (receiverStep s o).errored = true
      · exfalso
        simp only [receiverRun, hre2, Bool.false_eq_true, if_false, herr, if_true] at hnoerr
        exact absurd hnoerr (by simp)
      · have herr2 : (receiverStep s o).errored = false := by
          revert herr; cases (receiverStep s o).errored <;> simp
        have hnoerr2 : (receiverRun (receiverStep s o).state rest).errored = false := by
          simp only [receiverRun, hre2, Bool.false_eq_true, if_false, herr2] at hnoerr
          exact hnoerr
        simp only [List.cons_append, receiverRun, hre2, Bool.false_eq_true, if_false, herr2,
          List.append_eq]
        rw [ih _ hnoerr2]
        simp [List.append_assoc]

theorem producerStep_trigger (s : LoopState) (o : Obs)
    (hae : s.alreadyExited = false) (hse : o.shouldExit = true) :
    (producerStep s o).2 = Act.sendEos :: (producerBus o.bus).2 ∧
      (producerStep s o).1.alreadyExited = true := by
  constructor
  · simp [producerStep, hae, hse]
  · rw [producerStep_exited, hae, hse]
    rfl

theorem receiverStep_trigger (s : LoopState) (o : Obs)
    (hae : s.alreadyExited = false) (hse : o.shouldExit = true) (hwf : o.writeFails = false) :
    ∃ tl, (receiverStep s o).acts = Act.writeControl :: Act.sendEos :: tl ∧
      (receiverStep s o).state.alreadyExited = true ∧
      (receiverStep s o).errored = false := by
  rw [receiverStep]
  simp only [hae, hse, hwf, Bool.not_false, Bool.true_and, if_true, Bool.false_eq_true, if_false]
  cases hb : receiverBus o.bus false with
  | none => exact absurd hb (receiverBus_false_ne_none o.bus)
  | some pr =>
    obtain ⟨t, acts⟩ := pr
    cases t <;> exact ⟨acts, rfl, by simp [applyTerm], rfl⟩

theorem producerBus_error_free (b : List BusMsg) (h : BusMsg.error ∉ b) :
    producerBus b = ((if BusMsg.eos ∈ b then some false else none), []) := by
  induction b with
  | nil => simp [producerBus]
  | cons m rest ih =>
    cases m with
    | eos => simp [producerBus]
    | error => exact absurd (List.mem_cons_self _ _) h
    | other =>
      have h2 : BusMsg.error ∉ rest := fun hc => h (List.mem_cons_of_mem _ hc)
      have hstep : producerBus (BusMsg.other :: rest) = producerBus rest := rfl
      rw [hstep, ih h2]
      simp

theorem producerBus_error_term (b : List BusMsg) (h : BusMsg.eos ∉ b)
    (he : BusMsg.error ∈ b) : producerBus b = (some true, [Act.setNull]) := by
  induction b with
  | nil => exact absurd he (List.not_mem_nil _)
  | cons m rest ih =>
    cases m with
    | eos => exact absurd (List.mem_cons_self _ _) h
    | error => rfl
    | other =>
      have h2 : BusMsg.eos ∉ rest := fun hc => h (List.mem_cons_of_mem _ hc)
      have he2 : BusMsg.error ∈ rest := by
        rcases List.mem_cons.mp he with hc | hm
        · exact absurd hc.symm (by simp)
        · exact hm
      exact ih h2 he2

theorem receiverBus_error_free (b : List BusMsg) (wf : Bool) (h : BusMsg.error ∉ b) :
    receiverBus b wf = some ((if BusMsg.eos ∈ b then some false else none), []) := by
  induction b with
  | nil => simp [receiverBus]
  | cons m rest ih =>
    cases m with
    | eos => simp [receiverBus]
    | error => exact absurd (List.mem_cons_self _ _) h
    | other =>
      have h2 : BusMsg.error ∉ rest := fun hc => h (List.mem_cons_of_mem _ hc)
      have hstep : receiverBus (BusMsg.other :: rest) wf = receiverBus rest wf := rfl
      rw [hstep, ih h2]
      simp

theorem receiverBus_error_term (b : List BusMsg) (h : BusMsg.eos ∉ b)
    (he : BusMsg.error ∈ b) :
    receiverBus b false = some (some true, [Act.writeControl]) := by
  induction b with
  | nil => exact absurd he (List.not_mem_nil _)
  | cons m rest ih =>
    cases m with
    | eos => exact absurd (List.mem_cons_self _ _) h
    | error => rfl
    | other =>
      have h2 : BusMsg.eos ∉ rest := fun hc => h (List.mem_cons_of_mem _ hc)
      have he2 : BusMsg.error ∈ rest := by
        rcases List.mem_cons.mp he with hc | hm
        · exact absurd hc.symm (by simp)
        · exact hm
      exact ih h2 he2

theorem receiverBus_error_term_fail (b : List BusMsg) (h : BusMsg.eos ∉ b)
    (he : BusMsg.error ∈ b) : receiverBus b true = none := by
  induction b with
  | nil => exact absurd he (List.not_mem_nil _)
  | cons m rest ih =>
    cases m with
    | eos => exact absurd (List.mem_cons_self _ _) h
    | error => rfl
    | other =>
      have h2 : BusMsg.eos ∉ rest := fun hc => h (List.mem_cons_of_mem _ hc)
      have he2 : BusMsg.error ∈ rest := by
        rcases List.mem_cons.mp he with hc | hm
        · exact absurd hc.symm (by simp)
        · exact hm
      exact ih h2 he2

theorem producerRun_drain (t : List Obs) : ∀ s : LoopState, s.receivedEos = false →
    s.alreadyExited = true →
    (∀ o ∈ t, BusMsg.error ∉ o.bus) → (∃ o ∈ t, BusMsg.eos ∈ o.bus) →
    producerRun s t = (⟨true, true, s.endedByError⟩, []) := by
  induction t with
  | nil =>
    intro s _ _ _ hex
    simp at hex
  | cons o rest ih =>
    intro s hre hae herr hex
    simp only [producerRun, hre, Bool.false_eq_true, if_false]
    have hbus := producerBus_error_free o.bus (herr o (List.mem_cons_self _ _))
    by_cases heosO : BusMsg.eos ∈ o.bus
    · have hstep : producerStep s o = (⟨true, true, s.endedByError⟩, []) := by
        simp [producerStep, hbus, heosO, hae, applyTerm]
      rw [hstep, producerRun_stopped _ rest rfl]
      simp
    · have hex2 : ∃ o' ∈ rest, BusMsg.eos ∈ o'.bus := by
        rcases hex with ⟨o', ho', he'⟩
        rcases List.mem_cons.mp ho' with rfl | hm
        · exact absurd he' heosO
        · exact ⟨o', hm, he'⟩
      have hstep : producerStep s o = (⟨false, true, s.endedByError⟩, []) := by
        simp [producerStep, hbus, heosO, hae, hre, applyTerm]
      rw [hstep,
        ih ⟨false, true, s.endedByError⟩ rfl rfl
          (fun o' h' => herr o' (List.mem_cons_of_mem _ h')) hex2]
      simp

theorem receiverRun_drain (t : List Obs) : ∀ s : LoopState, s.receivedEos = false →
    s.alreadyExited = true →
    (∀ o ∈ t, BusMsg.error ∉ o.bus) → (∃ o ∈ t, BusMsg.eos ∈ o.bus) →
    receiverRun s t = ⟨⟨true, true, s.endedByError⟩, [], false⟩ := by
  induction t with
  | nil =>
    intro s _ _ _ hex
    simp at hex
  | cons o rest ih =>
    intro s hre hae herr hex
    simp only [receiverRun, hre, Bool.false_eq_true, if_false]
    have hbus := receiverBus_error_free o.bus o.writeFails (herr o (List.mem_cons_self _ _))
    by_cases heosO : BusMsg.eos ∈ o.bus
    · have hstep : receiverStep s o = ⟨⟨true, true, s.endedByError⟩, [], false⟩ := by
        simp [receiverStep, hbus, heosO, hae, applyTerm]
      rw [hstep]
      simp only [Bool.false_eq_true, if_false]
      rw [receiverRun_stopped _ rest rfl]
      simp
    · have hex2 : ∃ o' ∈ rest, BusMsg.eos ∈ o'.bus := by
        rcases hex with ⟨o', ho', he'⟩
        rcases List.mem_cons.mp ho' with rfl | hm
        · exact absurd he' heosO
        · exact ⟨o', hm, he'⟩
      have hstep : receiverStep s o = ⟨⟨false, true, s.endedByError⟩, [], false⟩ := by
        simp [receiverStep, hbus, heosO, hae, hre, applyTerm]
      rw [hstep]
      simp only [Bool.false_eq_true, if_false]
      rw [ih ⟨false, true, s.endedByError⟩ rfl rfl
        (fun o' h' => herr o' (List.mem_cons_of_mem _ h')) hex2]
      simp

theorem producerRun_quiet (t : List Obs) : ∀ s : LoopState, s.receivedEos = false →
    s.alreadyExited = false →
    (∀ o ∈ t, o.shouldExit = false ∧ o.control = false) →
    (∀ o ∈ t, BusMsg.error ∉ o.bus) → (∃ o ∈ t, BusMsg.eos ∈ o.bus) →
    producerRun s t = (⟨true, false, s.endedByError⟩, []) := by
  induction t with
  | nil =>
    intro s _ _ _ _ hex
    simp at hex
  | cons o rest ih =>
    intro s hre hae htrig herr hex
    simp only [producerRun, hre, Bool.false_eq_true, if_false]
    obtain ⟨hse, hco⟩ := htrig o (List.mem_cons_self _ _)
    have hbus := producerBus_error_free o.bus (herr o (List.mem_cons_self _ _))
    by_cases heosO : BusMsg.eos ∈ o.bus
    · have hstep : producerStep s o = (⟨true, false, s.endedByError⟩, []) := by
        simp [producerStep, hbus, heosO, hae, hse, hco, applyTerm]
      rw [hstep, producerRun_stopped _ rest rfl]
      simp
    · have hex2 : ∃ o' ∈ rest, BusMsg.eos ∈ o'.bus := by
        rcases hex with ⟨o', ho', he'⟩
        rcases List.mem_cons.mp ho' with rfl | hm
        · exact absurd he' heosO
        · exact ⟨o', hm, he'⟩
      have hstep : producerStep s o = (⟨false, false, s.endedByError⟩, []) := by
        simp [producerStep, hbus, heosO, hae, hse, hco, hre, applyTerm]
      rw [hstep,
        ih ⟨false, false, s.endedByError⟩ rfl rfl
          (fun o' h' => htrig o' (List.mem_cons_of_mem _ h'))
          (fun o' h' => herr o' (List.mem_cons_of_mem _ h')) hex2]
      simp

theorem receiverRun_quiet (t : List Obs) : ∀ s : LoopState, s.receivedEos = false →
    s.alreadyExited = false →
    (∀ o ∈ t, o.shouldExit = false) →
    (∀ o ∈ t, BusMsg.error ∉ o.bus) → (∃ o ∈ t, BusMsg.eos ∈ o.bus) →
    receiverRun s t = ⟨⟨true, false, s.endedByError⟩, [], false⟩ := by
  induction t with
  | nil =>
    intro s _ _ _ _ hex
    simp at hex
  | cons o rest ih =>
    intro s hre hae htrig herr hex
    simp only [receiverRun, hre, Bool.false_eq_true, if_false]
    have hse := htrig o (List.mem_cons_self _ _)
    have hbus := receiverBus_error_free o.bus o.writeFails (herr o (List.mem_cons_self _ _))
    by_cases heosO : BusMsg.eos ∈ o.bus
    · have hstep : receiverStep s o = ⟨⟨true, false, s.endedByError⟩, [], false⟩ := by
        simp [receiverStep, hbus, heosO, hae, hse, applyTerm]
      rw [hstep]
      simp only [Bool.false_eq_true, if_false]
      rw [receiverRun_stopped _ rest rfl]
      simp
    · have hex2 : ∃ o' ∈ rest, BusMsg.eos ∈ o'.bus := by
        rcases hex with ⟨o', ho', he'⟩
        rcases List.mem_cons.mp ho' with rfl | hm
        · exact absurd he' heosO
        · exact ⟨o', hm, he'⟩
      have hstep : receiverStep s o = ⟨⟨false, false, s.endedByError⟩, [], false⟩ := by
        simp [receiverStep, hbus, heosO, hae, hse, hre, applyTerm]
      rw [hstep]
      simp only [Bool.false_eq_true, if_false]
      rw [ih ⟨false, false, s.endedByError⟩ rfl rfl
        (fun o' h' => htrig o' (List.mem_cons_of_mem _ h'))
        (fun o' h' => herr o' (List.mem_cons_of_mem _ h')) hex2]
      simp

theorem producerRun_errorStop (t : List Obs) : ∀ s : LoopState, s.receivedEos = false →
    (∀ o ∈ t, o.shouldExit = false ∧ o.control = false) →
    (∀ o ∈ t, BusMsg.eos ∉ o.bus) → (∃ o ∈ t, BusMsg.error ∈ o.bus) →
    producerRun s t = (⟨true, s.alreadyExited, true⟩, [Act.setNull]) := by
  induction t with
  | nil =>
    intro s _ _ _ hex
    simp at hex
  | cons o rest ih =>
    intro s hre htrig heos hex
    simp only [producerRun, hre, Bool.false_eq_true, if_false]
    obtain ⟨hse, hco⟩ := htrig o (List.mem_cons_self _ _)
    have heosO := heos o (List.mem_cons_self _ _)
    by_cases herrO : BusMsg.error ∈ o.bus
    · have hbus := producerBus_error_term o.bus heosO herrO
      have hstep : producerStep s o = (⟨true, s.alreadyExited, true⟩, [Act.setNull]) := by
        simp [producerStep, hbus, hse, hco, applyTerm]
      rw [hstep, producerRun_stopped _ rest rfl]
      simp
    · have hex2 : ∃ o' ∈ rest, BusMsg.error ∈ o'.bus := by
        rcases hex with ⟨o', ho', he'⟩
        rcases List.mem_cons.mp ho' with rfl | hm
        · exact absurd he' herrO
        · exact ⟨o', hm, he'⟩
      have hbus := producerBus_error_free o.bus herrO
      have hstep : producerStep s o = (⟨false, s.alreadyExited, s.endedByError⟩, []) := by
        simp [producerStep, hbus, heosO, hse, hco, hre, applyTerm]
      rw [hstep,
        ih ⟨false, s.alreadyExited, s.endedByError⟩ rfl
          (fun o' h' => htrig o' (List.mem_cons_of_mem _ h'))
          (fun o' h' => heos o' (List.mem_cons_of_mem _ h')) hex2]
      simp

theorem receiverRun_errorStop (t : List Obs) : ∀ s : LoopState, s.receivedEos = false →
    (∀ o ∈ t, o.shouldExit = false) → (∀ o ∈ t, o.writeFails = false) →
    (∀ o ∈ t, BusMsg.eos ∉ o.bus) → (∃ o ∈ t, BusMsg.error ∈ o.bus) →
    receiverRun s t = ⟨⟨true, s.alreadyExited, true⟩, [Act.writeControl], false⟩ := by
  induction t with
  | nil =>
    intro s _ _ _ _ hex
    simp at hex
  | cons o rest ih =>
    intro s hre htrig hwf heos hex
    simp only [receiverRun, hre, Bool.false_eq_true, if_false]
    have hse := htrig o (List.mem_cons_self _ _)
    have hwfO := hwf o (List.mem_cons_self _ _)
    have heosO := heos o (List.mem_cons_self _ _)
    by_cases herrO : BusMsg.error ∈ o.bus
    · have hbus := receiverBus_error_term o.bus heosO herrO
      have hstep : receiverStep s o =
          ⟨⟨true, s.alreadyExited, true⟩, [Act.writeControl], false⟩ := by
        rw [receiverStep]
        simp [hse, hwfO, hbus, applyTerm]
      rw [hstep]
      simp only [Bool.false_eq_true, if_false]
      rw [receiverRun_stopped _ rest rfl]
      simp
    · have hex2 : ∃ o' ∈ rest, BusMsg.error ∈ o'.bus := by
        rcases hex with ⟨o', ho', he'⟩
        rcases List.mem_cons.mp ho' with rfl | hm
        · exact absurd he' herrO
        · exact ⟨o', hm, he'⟩
      have hbus := receiverBus_error_free o.bus o.writeFails herrO
      have hstep : receiverStep s o = ⟨⟨false, s.alreadyExited, s.endedByError⟩, [], false⟩ := by
        simp [receiverStep, hbus, heosO, hse, hre, applyTerm]
      rw [hstep]
      simp only [Bool.false_eq_true, if_false]
      rw [ih ⟨false, s.alreadyExited, s.endedByError⟩ rfl
        (fun o' h' => htrig o' (List.mem_cons_of_mem _ h'))
        (fun o' h' => hwf o' (List.mem_cons_of_mem _ h'))
        (fun o' h' => heos o' (List.mem_cons_of_mem _ h')) hex2]
      simp

/-- Counterexample to claim C4 as stated: a bus `Error` is listed among
the termination triggers, yet when it fires while in Playing the run
terminates (`received_eos` set) without any end-of-stream request ever
being issued — the count is 0, not 1, in both roles. -/
theorem eos_exactly_once_counterexample :
    countAct Act.sendEos (producerProgram [⟨false, false, false, [BusMsg.error]⟩]) = 0 ∧
    countAct Act.sendEos (receiverProgram [⟨false, false, false, [BusMsg.error]⟩]).1 = 0 ∧
    (producerRun initState [⟨false, false, false, [BusMsg.error]⟩]).1.receivedEos = true ∧
    (receiverRun initState [⟨false, false, false, [BusMsg.error]⟩]).state.receivedEos = true := by
  decide

/-- Claim C4 (amended): in both roles the end-of-stream request is issued
at most once per run; and it is issued exactly once once a shutdown-flag
or control-byte trigger is observed while in Playing (for the receiver,
provided the control-byte write does not fail).  A bus `Error` terminates
the run without an EOS request. -/
theorem eos_request_at_most_once (trace : List Obs) :
    countAct Act.sendEos (producerRun initState trace).2 ≤ 1 ∧
    countAct Act.sendEos (receiverRun initState trace).acts ≤ 1 ∧
    (∀ pre o post, trace = pre ++ o :: post →
      (producerRun initState pre).1.receivedEos = false →
      (producerRun initState pre).1.alreadyExited = false →
      (o.shouldExit || o.control) = true →
      countAct Act.sendEos (producerRun initState trace).2 = 1) ∧
    (∀ pre o post, trace = pre ++ o :: post →
      (receiverRun initState pre).errored = false →
      (receiverRun initState pre).state.receivedEos = false →
      (receiverRun initState pre).state.alreadyExited = false →
      o.shouldExit = true → o.writeFails = false →
      countAct Act.sendEos (receiverRun initState trace).acts = 1) := by
  refine ⟨?_, ?_, ?_, ?_⟩
  · rw [producerRun_eos_count trace initState]
    split <;> simp
  · rw [receiverRun_eos_count trace initState]
    split <;> simp
  · intro pre o post htr h1 h2 h3
    subst htr
    rw [producerRun_eos_count (pre ++ o :: post) initState]
    suffices hfin : (producerRun initState (pre ++ o :: post)).1.alreadyExited = true by
      rw [hfin]
      simp [initState]
    rw [producerRun_append pre (o :: post) initState]
    simp only
    simp only [producerRun, h1, Bool.false_eq_true, if_false]
    apply producerRun_exited_mono post
    rw [producerStep_exited, h2]
    simpa using h3
  · intro pre o post htr herrp h1 h2 h3 h4
    subst htr
    rw [receiverRun_eos_count (pre ++ o :: post) initState]
    suffices hfin : (receiverRun initState (pre ++ o :: post)).state.alreadyExited = true by
      rw [hfin]
      simp [initState]
    rw [receiverRun_append pre (o :: post) initState herrp]
    simp only
    obtain ⟨tl, hacts, hex, herrS⟩ := receiverStep_trigger (receiverRun initState pre).state o h2 h3 h4
    simp only [receiverRun, h1, Bool.false_eq_true, if_false, herrS]
    exact receiverRun_exited_mono post _ hex

/-- Witness for the amended claim C4 at a one-observation trace whose
flag is set. -/
theorem eos_request_at_most_once_witness :
    countAct Act.sendEos (producerRun initState ([] ++ (⟨true, false, false, []⟩ : Obs) :: [])).2 = 1 ∧
    countAct Act.sendEos (receiverRun initState ([] ++ (⟨true, false, false, []⟩ : Obs) :: [])).acts = 1 :=
  ⟨(eos_request_at_most_once ([] ++ (⟨true, false, false, []⟩ : Obs) :: [])).2.2.1
      [] ⟨true, false, false, []⟩ [] rfl (by decide) (by decide) (by decide),
   (eos_request_at_most_once ([] ++ (⟨true, false, false, []⟩ : Obs) :: [])).2.2.2
      [] ⟨true, false, false, []⟩ [] rfl (by decide) (by decide) (by decide) (by decide) (by decide)⟩

/-- The code's bus poll timeout, in milliseconds: `iter_timed(1s)` at
main.rs:281 and main.rs:581. -/
def pollTimeoutMs : Nat := 1000

/-- One message arrival within a drain of `bus.iter_timed(1s)`: the
message together with how many milliseconds into its `next()` call it
arrived.  The iterator yields it only when the gap is within the
timeout. -/
structure TimedMsg where
  gap : Nat
  msg : BusMsg
deriving DecidableEq

/-- Elapsed real time of one `bus.iter_timed(1s)` drain, in
milliseconds.  The iterator re-arms its timeout on every `next()` call,
so each yielded message contributes its arrival gap; a terminal `Eos` or
`Error` breaks out of the for loop at once, after a non-terminal message
the loop calls `next()` again, and the final empty poll that ends the
iteration costs the full timeout. -/
def drainTime : List TimedMsg → Nat
  | [] => pollTimeoutMs
  | ⟨g, BusMsg.eos⟩ :: _ => g
  | ⟨g, BusMsg.error⟩ :: _ => g
  | ⟨g, BusMsg.other⟩ :: rest => g + drainTime rest

/-- Counterexample to claim C7 as stated: the flag-to-EOS latency is not
bounded by one poll-timeout interval when other messages arrive on the
bus.  If the flag becomes true just after an iteration's flag check, and
that iteration's drain yields two non-terminal messages each arriving
999 ms into its (re-armed) poll, the drain lasts 999 + 999 + 1000 =
2998 ms > 1000 ms before control returns to the loop top; the runs below
confirm the EOS request is only issued in the following iteration, in
both roles. -/
theorem drain_latency_counterexample :
    pollTimeoutMs < drainTime [⟨999, BusMsg.other⟩, ⟨999, BusMsg.other⟩] ∧
    drainTime [⟨999, BusMsg.other⟩, ⟨999, BusMsg.other⟩] = 2998 ∧
    (∀ m ∈ [(⟨999, BusMsg.other⟩ : TimedMsg), ⟨999, BusMsg.other⟩],
      m.gap ≤ pollTimeoutMs) ∧
    producerRun initState
        [⟨false, false, false, [BusMsg.other, BusMsg.other]⟩, ⟨true, false, false, []⟩] =
      (⟨false, true, false⟩, [Act.sendEos]) ∧
    (receiverRun initState
        [⟨false, false, false, [BusMsg.other, BusMsg.other]⟩, ⟨true, false, false, []⟩]).acts =
      [Act.writeControl, Act.sendEos] := by
  decide

/-- Claim C7 (amended): when the shutdown flag is observed set while the
driver is in Playing (live, not yet draining), the end-of-stream request
is emitted within that very loop iteration — immediately after the
actions of the preceding iterations and before that iteration's bus
drain — regardless of what the bus delivers.  The latency from the flag
being set to the request is therefore one loop iteration; its elapsed
time equals one poll-timeout interval only when the drain in progress
yields no further messages, because `iter_timed` re-arms its timeout per
message (see `drainTime`). -/
theorem drain_latency (pre : List Obs) (o : Obs) (post : List Obs)
    (hflag : o.shouldExit = true) :
    ((producerRun initState pre).1.receivedEos = false →
      (producerRun initState pre).1.alreadyExited = false →
      ∃ tl, (producerRun initState (pre ++ o :: post)).2 =
        (producerRun initState pre).2 ++ Act.sendEos :: tl) ∧
    ((receiverRun initState pre).errored = false →
      (receiverRun initState pre).state.receivedEos = false →
      (receiverRun initState pre).state.alreadyExited = false →
      o.writeFails = false →
      ∃ tl, (receiverRun initState (pre ++ o :: post)).acts =
        (receiverRun initState pre).acts ++ Act.writeControl :: Act.sendEos :: tl) := by
  constructor
  · intro h1 h2
    rw [producerRun_append pre (o :: post) initState]
    simp only
    simp only [producerRun, h1, Bool.false_eq_true, if_false]
    obtain ⟨hacts, _⟩ := producerStep_trigger (producerRun initState pre).1 o h2 hflag
    rw [hacts]
    exact ⟨(producerBus o.bus).2 ++ (producerRun (producerStep (producerRun initState pre).1 o).1 post).2,
      by simp⟩
  · intro herrp h1 h2 h3
    rw [receiverRun_append pre (o :: post) initState herrp]
    simp only
    obtain ⟨tl, hacts, hex, herrS⟩ := receiverStep_trigger (receiverRun initState pre).state o h2 hflag h3
    simp only [receiverRun, h1, Bool.false_eq_true, if_false, herrS]
    rw [hacts]
    exact ⟨tl ++ (receiverRun (receiverStep (receiverRun initState pre).state o).state post).acts,
      by simp⟩

/-- Witness for claim C7 with an empty prefix and suffix. -/
theorem drain_latency_witness :
    (∃ tl, (producerRun initState ([] ++ (⟨true, false, false, []⟩ : Obs) :: [])).2 =
      (producerRun initState []).2 ++ Act.sendEos :: tl) ∧
    (∃ tl, (receiverRun initState ([] ++ (⟨true, false, false, []⟩ : Obs) :: [])).acts =
      (receiverRun initState []).acts ++ Act.writeControl :: Act.sendEos :: tl) :=
  ⟨(drain_latency [] ⟨true, false, false, []⟩ [] rfl).1 (by decide) (by decide),
   (drain_latency [] ⟨true, false, false, []⟩ [] rfl).2 (by decide) (by decide) (by decide) (by decide)⟩

/-- Claim C8 (Scenario D): the shutdown flag set while in Playing makes
the driver issue exactly one end-of-stream request and enter the draining
phase (`already_exited`); a later `Eos` bus event then ends the run in
the normal (non-error) terminated state, in both roles. -/
theorem scenarioD_drain (o : Obs) (rest : List Obs)
    (hse : o.shouldExit = true)
    (heosO : BusMsg.eos ∉ o.bus) (herrO : BusMsg.error ∉ o.bus)
    (herr : ∀ o' ∈ rest, BusMsg.error ∉ o'.bus)
    (heos : ∃ o' ∈ rest, BusMsg.eos ∈ o'.bus) :
    producerRun initState (o :: rest) = (⟨true, true, false⟩, [Act.sendEos]) ∧
    (o.writeFails = false →
      receiverRun initState (o :: rest) =
        ⟨⟨true, true, false⟩, [Act.writeControl, Act.sendEos], false⟩) := by
  constructor
  · have hstep : producerStep initState o = (⟨false, true, false⟩, [Act.sendEos]) := by
      simp [producerStep, initState, hse, producerBus_error_free o.bus herrO, heosO, applyTerm]
    simp only [producerRun, initState, Bool.false_eq_true, if_false]
    rw [show (⟨false, false, false⟩ : LoopState) = initState from rfl, hstep,
      producerRun_drain rest ⟨false, true, false⟩ rfl rfl herr heos]
    simp
  · intro hwf
    have hstep : receiverStep initState o =
        ⟨⟨false, true, false⟩, [Act.writeControl, Act.sendEos], false⟩ := by
      rw [receiverStep]
      simp [initState, hse, hwf, receiverBus_error_free o.bus false herrO, heosO, applyTerm]
    simp only [receiverRun, initState, Bool.false_eq_true, if_false]
    rw [show (⟨false, false, false⟩ : LoopState) = initState from rfl, hstep]
    simp only [Bool.false_eq_true, if_false]
    rw [receiverRun_drain rest ⟨false, true, false⟩ rfl rfl herr heos]
    simp

/-- Witness for claim C8: flag observed first, then a bus `Eos`. -/
theorem scenarioD_drain_witness :
    producerRun initState [⟨true, false, false, []⟩, ⟨false, false, false, [BusMsg.eos]⟩] =
      (⟨true, true, false⟩, [Act.sendEos]) ∧
    receiverRun initState [⟨true, false, false, []⟩, ⟨false, false, false, [BusMsg.eos]⟩] =
      ⟨⟨true, true, false⟩, [Act.writeControl, Act.sendEos], false⟩ :=
  ⟨(scenarioD_drain ⟨true, false, false, []⟩ [⟨false, false, false, [BusMsg.eos]⟩]
      rfl (by decide) (by decide) (by decide) (by decide)).1,
   (scenarioD_drain ⟨true, false, false, []⟩ [⟨false, false, false, [BusMsg.eos]⟩]
      rfl (by decide) (by decide) (by decide) (by decide)).2 rfl⟩

/-- Claim C9 (Scenario C): an `Eos` bus event observed in Playing with no
prior trigger of any kind ends the run in the normal terminated state,
and the driver never issues an end-of-stream request itself (no actions
at all are emitted), in both roles. -/
theorem scenarioC_direct_eos (trace : List Obs)
    (htrig : ∀ o ∈ trace, o.shouldExit = false ∧ o.control = false)
    (herr : ∀ o ∈ trace, BusMsg.error ∉ o.bus)
    (heos : ∃ o ∈ trace, BusMsg.eos ∈ o.bus) :
    producerRun initState trace = (⟨true, false, false⟩, []) ∧
    receiverRun initState trace = ⟨⟨true, false, false⟩, [], false⟩ :=
  ⟨producerRun_quiet trace initState rfl rfl htrig herr heos,
   receiverRun_quiet trace initState rfl rfl (fun o h => (htrig o h).1) herr heos⟩

/-- Witness for claim C9 at a single quiet iteration delivering `Eos`. -/
theorem scenarioC_direct_eos_witness :
    producerRun initState [⟨false, false, false, [BusMsg.other, BusMsg.eos]⟩] =
      (⟨true, false, false⟩, []) ∧
    receiverRun initState [⟨false, false, false, [BusMsg.other, BusMsg.eos]⟩] =
      ⟨⟨true, false, false⟩, [], false⟩ :=
  scenarioC_direct_eos [⟨false, false, false, [BusMsg.other, BusMsg.eos]⟩]
    (by decide) (by decide) (by decide)

/-- Counterexample to claim C5 as stated: in the producer role, a bus
`Error` observed in Playing makes the loop call `set_state(Null)` inside
the error branch and then again after the loop, so the stop command is
issued twice over the run, not exactly once (the run does terminate in
the error state and never issues an EOS request). -/
theorem error_stop_counterexample :
    producerProgram [⟨false, false, false, [BusMsg.error]⟩] = [Act.setNull, Act.setNull] ∧
    (producerRun initState [⟨false, false, false, [BusMsg.error]⟩]).1 = ⟨true, false, true⟩ := by
  decide

/-- Claim C5 (amended): an `Error` observed on the bus while in Playing
(no prior trigger) terminates the run in the error state with no
end-of-stream request ever issued; the stop command is issued twice in
the producer role (once in the error branch, once as final cleanup)
and exactly once in the receiver role. -/
theorem error_termination (trace : List Obs)
    (htrig : ∀ o ∈ trace, o.shouldExit = false ∧ o.control = false)
    (hnoeos : ∀ o ∈ trace, BusMsg.eos ∉ o.bus)
    (herr : ∃ o ∈ trace, BusMsg.error ∈ o.bus) :
    ((producerRun initState trace).1 = ⟨true, false, true⟩ ∧
      countAct Act.setNull (producerProgram trace) = 2 ∧
      countAct Act.sendEos (producerProgram trace) = 0) ∧
    ((∀ o ∈ trace, o.writeFails = false) →
      (receiverRun initState trace).state = ⟨true, false, true⟩ ∧
      (receiverRun initState trace).errored = false ∧
      countAct Act.setNull (receiverProgram trace).1 = 1 ∧
      countAct Act.sendEos (receiverProgram trace).1 = 0) := by
  have hrun := producerRun_errorStop trace initState rfl htrig hnoeos herr
  constructor
  · refine ⟨by rw [hrun]; rfl, ?_, ?_⟩
    · rw [producerProgram, hrun]
      decide
    · rw [producerProgram, hrun]
      decide
  · intro hwf
    have hrunR := receiverRun_errorStop trace initState rfl
      (fun o h => (htrig o h).1) hwf hnoeos herr
    refine ⟨by rw [hrunR]; rfl, by rw [hrunR], ?_, ?_⟩
    · rw [receiverProgram, hrunR]
      decide
    · rw [receiverProgram, hrunR]
      decide

/-- Witness for the amended claim C5 at a single `Error` observation. -/
theorem error_termination_witness :
    countAct Act.setNull (producerProgram [⟨false, false, false, [BusMsg.error]⟩]) = 2 ∧
    countAct Act.setNull (receiverProgram [⟨false, false, false, [BusMsg.error]⟩]).1 = 1 :=
  ⟨((error_termination [⟨false, false, false, [BusMsg.error]⟩]
      (by decide) (by decide) (by decide)).1).2.1,
   ((error_termination [⟨false, false, false, [BusMsg.error]⟩]
      (by decide) (by decide) (by decide)).2 (by decide)).2.2.1⟩

/-- Counterexample to claim C6 as stated: the receiver's control-byte
write is behind `?`, so a failed write makes `receiver` return an error
and changes the lifecycle outcome — compare the same trace with the
write failing (run aborts with `Err`, nothing emitted) and succeeding
(normal drain request and final cleanup). -/
theorem control_byte_counterexample :
    receiverProgram [⟨true, false, true, []⟩] = ([], true) ∧
    receiverProgram [⟨true, false, false, []⟩] =
      ([Act.writeControl, Act.sendEos, Act.setNull], false) := by
  decide

/-- Claim C6 (amended): a failure of the control-byte write is escalated,
not logged-and-ignored: whether it happens at the shutdown-flag
transition or in the bus `Error` branch, `receiver` returns the error
immediately — no EOS request, no final stop command, and the run's
outcome changes. -/
theorem control_byte_failure_escalates (o : Obs) (rest : List Obs)
    (hwf : o.writeFails = true) :
    (o.shouldExit = true → receiverProgram (o :: rest) = ([], true)) ∧
    (BusMsg.eos ∉ o.bus → BusMsg.error ∈ o.bus →
      receiverProgram (o :: rest) = ([], true)) := by
  have hfinish : receiverStep initState o = ⟨initState, [], true⟩ →
      receiverProgram (o :: rest) = ([], true) := by
    intro hstep
    have hrun : receiverRun initState (o :: rest) = ⟨initState, [], true⟩ := by
      simp only [receiverRun, initState, Bool.false_eq_true, if_false]
      rw [show (⟨false, false, false⟩ : LoopState) = initState from rfl, hstep]
      rfl
    rw [receiverProgram, hrun]
    rfl
  constructor
  · intro hse
    apply hfinish
    rw [receiverStep]
    simp [initState, hse, hwf]
  · intro hne hin
    apply hfinish
    by_cases hse : o.shouldExit = true
    · rw [receiverStep]
      simp [initState, hse, hwf]
    · have hse2 : o.shouldExit = false := by
        revert hse; cases o.shouldExit <;> simp
      rw [receiverStep]
      simp only [initState, hse2, Bool.and_false, Bool.false_eq_true, if_false]
      rw [hwf, receiverBus_error_term_fail o.bus hne hin]

/-- Witness for the amended claim C6: a bus `Error` whose control-byte
write fails aborts the receiver. -/
theorem control_byte_failure_escalates_witness :
    receiverProgram [⟨false, false, true, [BusMsg.error]⟩] = ([], true) :=
  (control_byte_failure_escalates ⟨false, false, true, [BusMsg.error]⟩ [] rfl).2
    (by decide) (by decide)

end QubesStreaming
